import Mathlib

/-!
Shallow embedding of the riddle-maker action handlers
(src/src/actions/index.ts over the tables of src/db/tables.ts).

Conventions of the embedding:
* timestamps (`Date`) are natural numbers;
* `crypto.randomUUID()` results are passed in as an explicit `newId` argument;
* the authenticated caller (`context.locals.user`) is an `Option String`
  holding the user id, `none` meaning no authenticated user;
* each handler returns `Except ErrCode out × DBState`: the thrown
  `ActionError` code (or the zod validation failure, `BAD_REQUEST`) on the
  left, and the table-store state after the call on the right — handlers
  that throw do so before issuing any write, so they return the input state;
* JavaScript truthiness tests on optional strings and booleans
  (`if (input.isDefault)`, `if (input.collectionId)`) are modelled by
  `truthyBool` / `truthyStr`: `none`, `some false` and `some ""` are falsy.
-/

namespace RiddleMaker

/-- A row of the `RiddleCollections` table (src/db/tables.ts). -/
structure Collection where
  id : String
  userId : String
  name : String
  description : Option String
  icon : Option String
  isDefault : Bool
  createdAt : Nat
  updatedAt : Nat
  deriving DecidableEq, Repr

/-- A row of the `Riddles` table (src/db/tables.ts); `collectionId` is the
nullable reference to `RiddleCollections.id`. -/
structure Riddle where
  id : String
  collectionId : Option String
  userId : String
  question : String
  answer : String
  hint : Option String
  difficulty : Option String
  category : Option String
  language : Option String
  isFavorite : Bool
  isPublic : Bool
  createdAt : Nat
  updatedAt : Nat
  deriving DecidableEq, Repr

/-- The table store: both tables, each as a list of rows. -/
structure DBState where
  collections : List Collection
  riddles : List Riddle
  deriving DecidableEq, Repr

/-- Error codes thrown by the handlers (`ActionError` codes); `BAD_REQUEST`
is the code of a zod input-validation failure, raised before the handler
body runs. -/
inductive ErrCode where
  | UNAUTHORIZED
  | NOT_FOUND
  | FORBIDDEN
  | BAD_REQUEST
  deriving DecidableEq, Repr

/-- JavaScript truthiness of `boolean | undefined`. -/
def truthyBool : Option Bool → Bool
  | none => false
  | some b => b

/-- JavaScript truthiness of `string | undefined`: `undefined` and the empty
string are falsy. -/
def truthyStr : Option String → Bool
  | none => false
  | some s => s != ""

/-- Merge of an optional text column on partial update: a supplied string
replaces the stored value, an omitted field keeps it. -/
def setOpt (new old : Option String) : Option String :=
  match new with
  | none => old
  | some v => some v

/-- The `z.enum(["easy", "medium", "hard"])` membership test. -/
def validDifficulty (d : String) : Bool :=
  d == "easy" || d == "medium" || d == "hard"

/-- Validation of an optional `z.string().min(1)` field. -/
def validOptStr1 : Option String → Bool
  | none => true
  | some s => s != ""

/-- Validation of an optional difficulty field. -/
def validOptDifficulty : Option String → Bool
  | none => true
  | some d => validDifficulty d

/-- Validation of `z.number().int().positive().default(1)` (page). -/
def validPage : Option Int → Bool
  | none => true
  | some p => 0 < p

/-- Validation of `z.number().int().positive().max(100).default(20)`. -/
def validPageSize : Option Int → Bool
  | none => true
  | some p => 0 < p && p ≤ 100

/-- Input of `createRiddleCollection`. -/
structure CreateCollectionInput where
  name : String
  description : Option String
  icon : Option String
  isDefault : Option Bool
  deriving DecidableEq, Repr

/-- The zod schema of `createRiddleCollection`: `name` is `min(1)`. -/
def CreateCollectionInput.valid (i : CreateCollectionInput) : Bool :=
  i.name != ""

/-- Input of `updateRiddleCollection`. -/
structure UpdateCollectionInput where
  id : String
  name : Option String
  description : Option String
  icon : Option String
  isDefault : Option Bool
  deriving DecidableEq, Repr

/-- The zod schema of `updateRiddleCollection`: `id` is `min(1)` and `name`,
when supplied, is `min(1)`. -/
def UpdateCollectionInput.valid (i : UpdateCollectionInput) : Bool :=
  i.id != "" && validOptStr1 i.name

/-- Input of `deleteRiddleCollection` and `deleteRiddle`. -/
structure IdInput where
  id : String
  deriving DecidableEq, Repr

/-- The zod schema of the delete actions: `id` is `min(1)`. -/
def IdInput.valid (i : IdInput) : Bool :=
  i.id != ""

/-- Input of `createRiddle`. -/
structure CreateRiddleInput where
  question : String
  answer : String
  hint : Option String
  difficulty : Option String
  category : Option String
  language : Option String
  collectionId : Option String
  isFavorite : Option Bool
  isPublic : Option Bool
  deriving DecidableEq, Repr

/-- The zod schema of `createRiddle`: `question` and `answer` are `min(1)`
and `difficulty`, when supplied, is one of the three enum values. -/
def CreateRiddleInput.valid (i : CreateRiddleInput) : Bool :=
  i.question != "" && i.answer != "" && validOptDifficulty i.difficulty

/-- Input of `updateRiddle`; `collectionId` is `string | null | undefined`,
modelled as `Option (Option String)` (outer `none` = omitted, inner `none`
= explicit null). -/
structure UpdateRiddleInput where
  id : String
  question : Option String
  answer : Option String
  hint : Option String
  difficulty : Option String
  category : Option String
  language : Option String
  collectionId : Option (Option String)
  isFavorite : Option Bool
  isPublic : Option Bool
  deriving DecidableEq, Repr

/-- The zod schema of `updateRiddle`. -/
def UpdateRiddleInput.valid (i : UpdateRiddleInput) : Bool :=
  i.id != "" && validOptStr1 i.question && validOptStr1 i.answer &&
    validOptDifficulty i.difficulty

/-- Input of `listMyCollections`. -/
structure ListCollectionsInput where
  page : Option Int
  pageSize : Option Int
  deriving DecidableEq, Repr

/-- The zod schema of `listMyCollections`. -/
def ListCollectionsInput.valid (i : ListCollectionsInput) : Bool :=
  validPage i.page && validPageSize i.pageSize

/-- Input of `listMyRiddles`. -/
structure ListRiddlesInput where
  collectionId : Option String
  favoritesOnly : Option Bool
  difficulty : Option String
  category : Option String
  page : Option Int
  pageSize : Option Int
  deriving DecidableEq, Repr

/-- The zod schema of `listMyRiddles`. -/
def ListRiddlesInput.valid (i : ListRiddlesInput) : Bool :=
  validOptDifficulty i.difficulty && validPage i.page && validPageSize i.pageSize

/-- The clear-all-defaults statement: `update RiddleCollections set
isDefault = false, updatedAt = now where userId = uid`. -/
def clearDefaults (uid : String) (now : Nat) (cols : List Collection) :
    List Collection :=
  cols.map (fun c =>
    if c.userId == uid then { c with isDefault := false, updatedAt := now }
    else c)

/-- The `createRiddleCollection` action. -/
def createRiddleCollection (ctx : Option String) (input : CreateCollectionInput)
    (now : Nat) (newId : String) (s : DBState) :
    Except ErrCode Collection × DBState :=
  if input.valid then
    match ctx with
    | none => (.error .UNAUTHORIZED, s)
    | some uid =>
      let cols :=
        if truthyBool input.isDefault then clearDefaults uid now s.collections
        else s.collections
      let col : Collection :=
        { id := newId
          userId := uid
          name := input.name
          description := input.description
          icon := input.icon
          isDefault := input.isDefault.getD false
          createdAt := now
          updatedAt := now }
      (.ok col, { collections := cols ++ [col], riddles := s.riddles })
  else (.error .BAD_REQUEST, s)

/-- The partial-update record of `updateRiddleCollection` applied to a row:
only explicitly supplied fields change, `updatedAt` is always set. -/
def applyCollUpdate (input : UpdateCollectionInput) (now : Nat)
    (c : Collection) : Collection :=
  { c with
    updatedAt := now
    name := input.name.getD c.name
    description := setOpt input.description c.description
    icon := setOpt input.icon c.icon
    isDefault := input.isDefault.getD c.isDefault }

/-- The `updateRiddleCollection` action. The returned record is the updated
target row, as produced by `.returning()`. -/
def updateRiddleCollection (ctx : Option String) (input : UpdateCollectionInput)
    (now : Nat) (s : DBState) : Except ErrCode Collection × DBState :=
  if input.valid then
    match ctx with
    | none => (.error .UNAUTHORIZED, s)
    | some uid =>
      match s.collections.find? (fun c => c.id == input.id && c.userId == uid) with
      | none => (.error .NOT_FOUND, s)
      | some existing =>
        let cols1 :=
          if truthyBool input.isDefault then clearDefaults uid now s.collections
          else s.collections
        let cols2 := cols1.map (fun c =>
          if c.id == input.id && c.userId == uid then applyCollUpdate input now c
          else c)
        let returned := applyCollUpdate input now
          (if truthyBool input.isDefault then
            { existing with isDefault := false, updatedAt := now }
          else existing)
        (.ok returned, { collections := cols2, riddles := s.riddles })
  else (.error .BAD_REQUEST, s)

/-- The `deleteRiddleCollection` action: detach this user's riddles
referencing the collection, then delete the collection row. -/
def deleteRiddleCollection (ctx : Option String) (input : IdInput) (now : Nat)
    (s : DBState) : Except ErrCode Unit × DBState :=
  if input.valid then
    match ctx with
    | none => (.error .UNAUTHORIZED, s)
    | some uid =>
      match s.collections.find? (fun c => c.id == input.id && c.userId == uid) with
      | none => (.error .NOT_FOUND, s)
      | some _ =>
        let riddles2 := s.riddles.map (fun r =>
          if r.collectionId == some input.id && r.userId == uid then
            { r with collectionId := none, updatedAt := now }
          else r)
        let cols2 := s.collections.filter (fun c =>
          !(c.id == input.id && c.userId == uid))
        (.ok (), { collections := cols2, riddles := riddles2 })
  else (.error .BAD_REQUEST, s)

/-- The `createRiddle` action. The ownership check on `input.collectionId`
is guarded by JavaScript truthiness: it only runs for a supplied, non-empty
string, yet the supplied value (empty or not) is inserted as given. -/
def createRiddle (ctx : Option String) (input : CreateRiddleInput) (now : Nat)
    (newId : String) (s : DBState) : Except ErrCode Riddle × DBState :=
  if input.valid then
    match ctx with
    | none => (.error .UNAUTHORIZED, s)
    | some uid =>
      let r : Riddle :=
        { id := newId
          collectionId := input.collectionId
          userId := uid
          question := input.question
          answer := input.answer
          hint := input.hint
          difficulty := input.difficulty
          category := input.category
          language := input.language
          isFavorite := input.isFavorite.getD false
          isPublic := input.isPublic.getD false
          createdAt := now
          updatedAt := now }
      let inserted : Except ErrCode Riddle × DBState :=
        (.ok r, { collections := s.collections, riddles := s.riddles ++ [r] })
      match input.collectionId with
      | some cid =>
        if cid != "" then
          if s.collections.any (fun c => c.id == cid && c.userId == uid) then
            inserted
          else (.error .FORBIDDEN, s)
        else inserted
      | none => inserted
  else (.error .BAD_REQUEST, s)

/-- The partial-update record of `updateRiddle` applied to a row. -/
def applyRiddleUpdate (input : UpdateRiddleInput) (now : Nat) (r : Riddle) :
    Riddle :=
  { r with
    updatedAt := now
    question := input.question.getD r.question
    answer := input.answer.getD r.answer
    hint := setOpt input.hint r.hint
    difficulty := setOpt input.difficulty r.difficulty
    category := setOpt input.category r.category
    language := setOpt input.language r.language
    collectionId := input.collectionId.getD r.collectionId
    isFavorite := input.isFavorite.getD r.isFavorite
    isPublic := input.isPublic.getD r.isPublic }

/-- The `updateRiddle` action. The ownership re-validation of
`input.collectionId` runs only when the supplied value is truthy (a
non-empty string); explicit null and the empty string skip it. -/
def updateRiddle (ctx : Option String) (input : UpdateRiddleInput) (now : Nat)
    (s : DBState) : Except ErrCode Riddle × DBState :=
  if input.valid then
    match ctx with
    | none => (.error .UNAUTHORIZED, s)
    | some uid =>
      match s.riddles.find? (fun r => r.id == input.id && r.userId == uid) with
      | none => (.error .NOT_FOUND, s)
      | some existing =>
        let collOk :=
          match input.collectionId with
          | some (some cid) =>
            cid == "" || s.collections.any (fun c => c.id == cid && c.userId == uid)
          | _ => true
        if collOk then
          let riddles2 := s.riddles.map (fun r =>
            if r.id == input.id && r.userId == uid then
              applyRiddleUpdate input now r
            else r)
          (.ok (applyRiddleUpdate input now existing),
            { collections := s.collections, riddles := riddles2 })
        else (.error .FORBIDDEN, s)
  else (.error .BAD_REQUEST, s)

/-- The `deleteRiddle` action. -/
def deleteRiddle (ctx : Option String) (input : IdInput) (s : DBState) :
    Except ErrCode Unit × DBState :=
  if input.valid then
    match ctx with
    | none => (.error .UNAUTHORIZED, s)
    | some uid =>
      match s.riddles.find? (fun r => r.id == input.id && r.userId == uid) with
      | none => (.error .NOT_FOUND, s)
      | some _ =>
        (.ok (),
          { collections := s.collections
            riddles := s.riddles.filter (fun r =>
              !(r.id == input.id && r.userId == uid)) })
  else (.error .BAD_REQUEST, s)

/-- The `limit`/`offset` window of a query result: SQL applies them after
the `where` filter. -/
def pageWindow (page pageSize : Int) (l : List α) : List α :=
  ((l.drop ((page - 1) * pageSize).toNat).take pageSize.toNat)

/-- A list action's result payload: the page of rows and the `total` field,
computed by the source as `items.length`. -/
structure ListOut (α : Type) where
  items : List α
  total : Nat
  deriving DecidableEq, Repr

/-- The `listMyCollections` action. -/
def listMyCollections (ctx : Option String) (input : ListCollectionsInput)
    (s : DBState) : Except ErrCode (ListOut Collection) × DBState :=
  if input.valid then
    match ctx with
    | none => (.error .UNAUTHORIZED, s)
    | some uid =>
      let items := pageWindow (input.page.getD 1) (input.pageSize.getD 20)
        (s.collections.filter (fun c => c.userId == uid))
      (.ok { items := items, total := items.length }, s)
  else (.error .BAD_REQUEST, s)

/-- The `listMyRiddles` action: the filter array is built exactly as in the
source — each optional filter is pushed only when its input is truthy — and
the page window is applied to the conjunction of the pushed filters. -/
def listMyRiddles (ctx : Option String) (input : ListRiddlesInput)
    (s : DBState) : Except ErrCode (ListOut Riddle) × DBState :=
  if input.valid then
    match ctx with
    | none => (.error .UNAUTHORIZED, s)
    | some uid =>
      let filters : List (Riddle → Bool) :=
        [fun r => r.userId == uid] ++
        (if truthyStr input.collectionId then
          [fun r => r.collectionId == input.collectionId] else []) ++
        (if truthyBool input.favoritesOnly then
          [fun r => r.isFavorite == true] else []) ++
        (if truthyStr input.difficulty then
          [fun r => r.difficulty == input.difficulty] else []) ++
        (if truthyStr input.category then
          [fun r => r.category == input.category] else [])
      let whereClause : Riddle → Bool := fun r => filters.all (fun f => f r)
      let items := pageWindow (input.page.getD 1) (input.pageSize.getD 20)
        (s.riddles.filter whereClause)
      (.ok { items := items, total := items.length }, s)
  else (.error .BAD_REQUEST, s)

/-- The single-predicate form of the conjunction `listMyRiddles` actually
applies: each optional filter is applied only when its input is truthy
(a non-empty string, a true boolean). -/
def riddleFilters (uid : String) (input : ListRiddlesInput) (r : Riddle) : Bool :=
  r.userId == uid &&
  (!truthyStr input.collectionId || r.collectionId == input.collectionId) &&
  (!truthyBool input.favoritesOnly || r.isFavorite) &&
  (!truthyStr input.difficulty || r.difficulty == input.difficulty) &&
  (!truthyStr input.category || r.category == input.category)

/-- Modelled from the spec: a riddle matches the listing request when it
belongs to the caller and satisfies the conjunction of every provided
filter (a provided `favoritesOnly = false` imposes no restriction). -/
def specRiddleMatches (uid : String) (input : ListRiddlesInput) (r : Riddle) : Bool :=
  r.userId == uid &&
  (match input.collectionId with
   | none => true
   | some cid => r.collectionId == some cid) &&
  (match input.favoritesOnly with
   | none => true
   | some b => !b || r.isFavorite) &&
  (match input.difficulty with
   | none => true
   | some d => r.difficulty == some d) &&
  (match input.category with
   | none => true
   | some cat => r.category == some cat)

/-! Concrete rows and states used to evaluate the claims. -/

/-- A concrete riddle of user `u` with category `x`. -/
def catRiddle : Riddle :=
  { id := "rc"
    collectionId := none
    userId := "u"
    question := "qc"
    answer := "ac"
    hint := none
    difficulty := none
    category := some "x"
    language := none
    isFavorite := false
    isPublic := false
    createdAt := 0
    updatedAt := 0 }

/-- The store holding only `catRiddle`. -/
def catState : DBState :=
  { collections := [], riddles := [catRiddle] }

/-- A concrete riddle of user `u` kept in collection `c1`. -/
def linkedRiddle : Riddle :=
  { id := "rl"
    collectionId := some "c1"
    userId := "u"
    question := "ql"
    answer := "al"
    hint := none
    difficulty := none
    category := none
    language := none
    isFavorite := false
    isPublic := false
    createdAt := 0
    updatedAt := 0 }

/-- The riddle `createRiddle` stores when called from the empty store with
`collectionId = ""`: a non-null reference to a collection that does not
exist. -/
def danglingRiddle : Riddle :=
  { id := "r1"
    collectionId := some ""
    userId := "u"
    question := "q"
    answer := "a"
    hint := none
    difficulty := none
    category := none
    language := none
    isFavorite := false
    isPublic := false
    createdAt := 0
    updatedAt := 0 }

/-- The store holding only `danglingRiddle`. -/
def danglingState : DBState :=
  { collections := [], riddles := [danglingRiddle] }

/-- A concrete collection owned by user `u`. -/
def logicColl : Collection :=
  { id := "c1"
    userId := "u"
    name := "Logic"
    description := none
    icon := none
    isDefault := false
    createdAt := 0
    updatedAt := 0 }

/-- A concrete collection owned by a different user `v`. -/
def otherColl : Collection :=
  { id := "c9"
    userId := "v"
    name := "Foreign"
    description := none
    icon := none
    isDefault := false
    createdAt := 0
    updatedAt := 0 }

/-- A concrete riddle owned by user `u`, in no collection. -/
def plainRiddle : Riddle :=
  { id := "r1"
    collectionId := none
    userId := "u"
    question := "q"
    answer := "a"
    hint := none
    difficulty := none
    category := none
    language := none
    isFavorite := false
    isPublic := false
    createdAt := 0
    updatedAt := 0 }

/-- A concrete riddle owned by the other user `v`. -/
def foreignRiddle : Riddle :=
  { id := "r9"
    collectionId := none
    userId := "v"
    question := "q9"
    answer := "a9"
    hint := none
    difficulty := none
    category := none
    language := none
    isFavorite := false
    isPublic := false
    createdAt := 0
    updatedAt := 0 }

/-- A store with rows of two users: `v` owns the only collection and one
riddle, `u` owns the other riddle. -/
def mixedState : DBState :=
  { collections := [otherColl], riddles := [plainRiddle, foreignRiddle] }

/-- A store where user `u` owns collection `c1`, a riddle kept in it and a
riddle kept in no collection. -/
def linkedState : DBState :=
  { collections := [logicColl], riddles := [linkedRiddle, plainRiddle] }

/-- `linkedRiddle` after the detach statement of a delete at time 5. -/
def detachedRiddle : Riddle :=
  { linkedRiddle with collectionId := none, updatedAt := 5 }

/-- `linkedState` after `deleteRiddleCollection` of `c1` at time 5. -/
def afterDeleteState : DBState :=
  { collections := [], riddles := [detachedRiddle, plainRiddle] }

/-- `plainRiddle` after an update supplying only `hint` and `isPublic`. -/
def updatedPlain : Riddle :=
  { plainRiddle with hint := some "H", isPublic := true, updatedAt := 7 }

/-- `mixedState` after that partial riddle update. -/
def afterRiddleUpdState : DBState :=
  { collections := [otherColl], riddles := [updatedPlain, foreignRiddle] }

/-- `logicColl` after an update supplying only `name` and `isDefault`. -/
def renamedColl : Collection :=
  { logicColl with name := "Renamed", isDefault := true, updatedAt := 7 }

/-- `linkedState` after that partial collection update. -/
def afterCollUpdState : DBState :=
  { collections := [renamedColl], riddles := linkedState.riddles }

/-- `logicColl` after the clear-all-defaults statement at time 3. -/
def logicColl3 : Collection :=
  { logicColl with updatedAt := 3 }

/-- A second collection of user `u`, created as the default at time 3. -/
def wordplayColl : Collection :=
  { id := "c2"
    userId := "u"
    name := "Wordplay"
    description := none
    icon := none
    isDefault := true
    createdAt := 3
    updatedAt := 3 }

/-- The store after creating `wordplayColl` with `isDefault: true` on top
of `logicColl`. -/
def twoCollState : DBState :=
  { collections := [logicColl3, wordplayColl], riddles := [] }

/-! Invariants and reachability. -/

/-- Modelled from the spec: the referential-ownership invariant exactly as
the spec words it — every riddle whose `collectionId` is set (non-null)
references an existing collection owned by the riddle's user. -/
def specRefInvariantB (s : DBState) : Bool :=
  s.riddles.all (fun r =>
    match r.collectionId with
    | none => true
    | some cid => s.collections.any (fun c => c.id == cid && c.userId == r.userId))

/-- The referential-ownership property a single riddle actually enjoys under
the code: a set, non-empty `collectionId` resolves to a same-user collection
(the empty string slips past the handlers' truthiness guards). -/
def riddleRefOK (cols : List Collection) (r : Riddle) : Prop :=
  ∀ cid, r.collectionId = some cid → cid ≠ "" →
    ∃ c, c ∈ cols ∧ c.id = cid ∧ c.userId = r.userId

/-- The store-wide referential-ownership invariant the code maintains. -/
def refOK (s : DBState) : Prop :=
  ∀ r ∈ s.riddles, riddleRefOK s.collections r

/-- One action call, as a transition on the store. The generated ids stand
for `crypto.randomUUID()` results: fresh in their table and non-empty. -/
inductive Step : DBState → DBState → Prop where
  | createColl (ctx : Option String) (input : CreateCollectionInput)
      (now : Nat) (newId : String) (s : DBState) :
      newId ≠ "" → (∀ c ∈ s.collections, c.id ≠ newId) →
      Step s (createRiddleCollection ctx input now newId s).2
  | updateColl (ctx : Option String) (input : UpdateCollectionInput)
      (now : Nat) (s : DBState) :
      Step s (updateRiddleCollection ctx input now s).2
  | deleteColl (ctx : Option String) (input : IdInput) (now : Nat) (s : DBState) :
      Step s (deleteRiddleCollection ctx input now s).2
  | createR (ctx : Option String) (input : CreateRiddleInput)
      (now : Nat) (newId : String) (s : DBState) :
      newId ≠ "" → (∀ r ∈ s.riddles, r.id ≠ newId) →
      Step s (createRiddle ctx input now newId s).2
  | updateR (ctx : Option String) (input : UpdateRiddleInput)
      (now : Nat) (s : DBState) :
      Step s (updateRiddle ctx input now s).2
  | deleteR (ctx : Option String) (input : IdInput) (s : DBState) :
      Step s (deleteRiddle ctx input s).2
  | listC (ctx : Option String) (input : ListCollectionsInput) (s : DBState) :
      Step s (listMyCollections ctx input s).2
  | listR (ctx : Option String) (input : ListRiddlesInput) (s : DBState) :
      Step s (listMyRiddles ctx input s).2

/-- States reachable from the empty store by action calls. -/
inductive Reachable : DBState → Prop where
  | init : Reachable { collections := [], riddles := [] }
  | step {s s' : DBState} : Reachable s → Step s s' → Reachable s'

/-- The user's default collections: the rows the single-default invariant
counts. -/
def defaultsOf (s : DBState) (uid : String) : List Collection :=
  s.collections.filter (fun c => c.userId == uid && c.isDefault)

/-! General list helper lemmas. -/

theorem filter_map_length_le (l : List α) (g : α → α) (p q : α → Bool)
    (h : ∀ x ∈ l, p (g x) = true → q x = true) :
    ((l.map g).filter p).length ≤ (l.filter q).length := by
  induction l with
  | nil => simp
  | cons a t ih =>
    have ht : ∀ x ∈ t, p (g x) = true → q x = true :=
      fun x hx => h x (List.mem_cons_of_mem a hx)
    have ihs := ih ht
    simp only [List.map_cons, List.filter_cons]
    by_cases hpa : p (g a) = true
    · have hqa := h a (List.mem_cons_self a t) hpa
      simp only [hpa, hqa, if_true, List.length_cons]
      omega
    · simp only [Bool.not_eq_true] at hpa
      simp only [hpa, Bool.false_eq_true, if_false]
      cases hqa : q a
      · simp only [Bool.false_eq_true, if_false]
        exact ihs
      · simp only [if_true, List.length_cons]
        omega

theorem filter_length_le_one (l : List α) (p : α → Bool)
    (h : l.Pairwise (fun a b => ¬(p a = true ∧ p b = true))) :
    (l.filter p).length ≤ 1 := by
  induction l with
  | nil => simp
  | cons a t ih =>
    rw [List.pairwise_cons] at h
    obtain ⟨ha, ht⟩ := h
    simp only [List.filter_cons]
    cases hpa : p a
    · simp only [Bool.false_eq_true, if_false]
      exact ih ht
    · simp only [if_true]
      have : t.filter p = [] := by
        rw [List.filter_eq_nil_iff]
        intro b hb hpb
        exact ha b hb ⟨hpa, hpb⟩
      rw [this]
      simp

theorem pairwise_id_unique {l : List Collection}
    (h : l.Pairwise (fun a b => a.id ≠ b.id))
    {c1 c2 : Collection} (h1 : c1 ∈ l) (h2 : c2 ∈ l) (heq : c1.id = c2.id) :
    c1 = c2 := by
  induction l with
  | nil => cases h1
  | cons a t ih =>
    rw [List.pairwise_cons] at h
    obtain ⟨ha, ht⟩ := h
    rcases List.mem_cons.mp h1 with rfl | h1t
    · rcases List.mem_cons.mp h2 with rfl | h2t
      · rfl
      · exact absurd heq (ha c2 h2t)
    · rcases List.mem_cons.mp h2 with rfl | h2t
      · exact absurd heq.symm (ha c1 h1t)
      · exact ih ht h1t h2t

theorem length_le_one_of_pairwise_ne {α β : Type} (f : α → β) (k : β)
    {l : List α} (hpw : l.Pairwise (fun a b => f a ≠ f b))
    (hall : ∀ c ∈ l, f c = k) : l.length ≤ 1 := by
  cases l with
  | nil => simp
  | cons a t =>
    cases t with
    | nil => simp
    | cons b t2 =>
      rw [List.pairwise_cons] at hpw
      exact absurd ((hall a (by simp)).trans (hall b (by simp)).symm)
        (hpw.1 b (by simp))

theorem pairwise_ne_id_map (g : Collection → Collection)
    (hg : ∀ c, (g c).id = c.id) {l : List Collection}
    (h : l.Pairwise (fun a b => a.id ≠ b.id)) :
    (l.map g).Pairwise (fun a b => a.id ≠ b.id) := by
  rw [List.pairwise_map]
  refine List.Pairwise.imp ?_ h
  intro a b hab
  rw [hg, hg]
  exact hab

theorem clearDefaults_no_defaults (uid : String) (now : Nat)
    (cols : List Collection) :
    (clearDefaults uid now cols).filter
      (fun c => c.userId == uid && c.isDefault) = [] := by
  rw [List.filter_eq_nil_iff]
  intro a ha
  rw [clearDefaults, List.mem_map] at ha
  obtain ⟨c, _, rfl⟩ := ha
  by_cases hc : c.userId == uid
  · simp [hc]
  · simp only [Bool.not_eq_true] at hc
    simp [hc]

theorem find?_map_pred_stable {α : Type} (p : α → Bool) (g : α → α)
    (hpg : ∀ x, p (g x) = p x) (l : List α) (a : α) (h : l.find? p = some a) :
    (l.map g).find? p = some (g a) := by
  induction l with
  | nil => cases h
  | cons x t ih =>
    rw [List.map_cons]
    cases hpx : p x with
    | true =>
      rw [List.find?_cons_of_pos _ hpx] at h
      injection h with h
      subst h
      rw [List.find?_cons_of_pos]
      rw [hpg]
      exact hpx
    | false =>
      rw [List.find?_cons_of_neg _ (by simp [hpx])] at h
      rw [List.find?_cons_of_neg]
      · exact ih h
      · rw [hpg]
        simp [hpx]

theorem filters_all_eq_riddleFilters (uid : String) (input : ListRiddlesInput)
    (r : Riddle) :
    (([fun r : Riddle => r.userId == uid] ++
      (if truthyStr input.collectionId then
        [fun r : Riddle => r.collectionId == input.collectionId] else []) ++
      (if truthyBool input.favoritesOnly then
        [fun r : Riddle => r.isFavorite == true] else []) ++
      (if truthyStr input.difficulty then
        [fun r : Riddle => r.difficulty == input.difficulty] else []) ++
      (if truthyStr input.category then
        [fun r : Riddle => r.category == input.category] else [])).all
      (fun f => f r)) = riddleFilters uid input r := by
  cases h1 : truthyStr input.collectionId <;>
    cases h2 : truthyBool input.favoritesOnly <;>
      cases h3 : truthyStr input.difficulty <;>
        cases h4 : truthyStr input.category <;>
          simp [riddleFilters, h1, h2, h3, h4, Bool.and_assoc]

/-! Preservation of the referential-ownership invariant by each action. -/

theorem riddleRefOK_mono {cols cols' : List Collection} {r : Riddle}
    (h : ∀ c ∈ cols, ∃ c', c' ∈ cols' ∧ c'.id = c.id ∧ c'.userId = c.userId) :
    riddleRefOK cols r → riddleRefOK cols' r := by
  intro hr cid hcid hne
  obtain ⟨c, hc, hid, huid⟩ := hr cid hcid hne
  obtain ⟨c', hc', hid', huid'⟩ := h c hc
  exact ⟨c', hc', by rw [hid', hid], by rw [huid', huid]⟩

theorem clearDefaults_cover (uid : String) (now : Nat) (cols : List Collection) :
    ∀ c ∈ cols, ∃ c', c' ∈ clearDefaults uid now cols ∧
      c'.id = c.id ∧ c'.userId = c.userId := by
  intro c hc
  refine ⟨_, List.mem_map_of_mem _ hc, ?_⟩
  by_cases h : c.userId == uid <;> simp [h]

theorem listMyCollections_snd (ctx : Option String) (input : ListCollectionsInput)
    (s : DBState) : (listMyCollections ctx input s).2 = s := by
  unfold listMyCollections
  by_cases hv : input.valid = true
  · simp only [hv, if_true]
    cases ctx <;> rfl
  · simp [hv]

theorem listMyRiddles_snd (ctx : Option String) (input : ListRiddlesInput)
    (s : DBState) : (listMyRiddles ctx input s).2 = s := by
  unfold listMyRiddles
  by_cases hv : input.valid = true
  · simp only [hv, if_true]
    cases ctx <;> rfl
  · simp [hv]

theorem refOK_createColl (ctx : Option String) (input : CreateCollectionInput)
    (now : Nat) (newId : String) (s : DBState) (h : refOK s) :
    refOK (createRiddleCollection ctx input now newId s).2 := by
  unfold createRiddleCollection
  by_cases hv : input.valid = true
  · simp only [hv, if_true]
    cases ctx with
    | none => exact h
    | some uid =>
      intro r hr
      refine riddleRefOK_mono ?_ (h r hr)
      intro c hc
      by_cases hd : truthyBool input.isDefault = true
      · simp only [hd, if_true]
        obtain ⟨c', hc', hp⟩ := clearDefaults_cover uid now s.collections c hc
        exact ⟨c', List.mem_append_left _ hc', hp⟩
      · simp only [hd, if_false]
        exact ⟨c, List.mem_append_left _ hc, rfl, rfl⟩
  · simpa [hv] using h

theorem refOK_updateColl (ctx : Option String) (input : UpdateCollectionInput)
    (now : Nat) (s : DBState) (h : refOK s) :
    refOK (updateRiddleCollection ctx input now s).2 := by
  unfold updateRiddleCollection
  by_cases hv : input.valid = true
  · simp only [hv, if_true]
    cases ctx with
    | none => exact h
    | some uid =>
      dsimp only
      cases hfind : s.collections.find?
          (fun c => c.id == input.id && c.userId == uid) with
      | none => exact h
      | some ex =>
        dsimp only
        intro r hr
        refine riddleRefOK_mono ?_ (h r hr)
        intro c hc
        have hstep : ∀ cols1 : List Collection,
            (∃ c', c' ∈ cols1 ∧ c'.id = c.id ∧ c'.userId = c.userId) →
            ∃ c'', c'' ∈ cols1.map (fun c0 =>
              if c0.id == input.id && c0.userId == uid then
                applyCollUpdate input now c0
              else c0) ∧ c''.id = c.id ∧ c''.userId = c.userId := by
          intro cols1 hex
          obtain ⟨c', hc', hid, huid⟩ := hex
          refine ⟨_, List.mem_map_of_mem _ hc', ?_⟩
          by_cases hcase : (c'.id == input.id && c'.userId == uid) = true
          · simp only [hcase, if_true]
            exact ⟨hid, huid⟩
          · simp only [hcase, if_false]
            exact ⟨hid, huid⟩
        by_cases hd : truthyBool input.isDefault = true
        · simp only [hd, if_true]
          exact hstep _ (clearDefaults_cover uid now s.collections c hc)
        · simp only [hd, if_false]
          exact hstep _ ⟨c, hc, rfl, rfl⟩
  · simpa [hv] using h

theorem refOK_deleteColl (ctx : Option String) (input : IdInput)
    (now : Nat) (s : DBState) (h : refOK s) :
    refOK (deleteRiddleCollection ctx input now s).2 := by
  unfold deleteRiddleCollection
  by_cases hv : input.valid = true
  · simp only [hv, if_true]
    cases ctx with
    | none => exact h
    | some uid =>
      dsimp only
      cases hfind : s.collections.find?
          (fun c => c.id == input.id && c.userId == uid) with
      | none => exact h
      | some ex =>
        dsimp only
        intro r2 hr2
        simp only [List.mem_map] at hr2
        obtain ⟨r, hr, rfl⟩ := hr2
        cases hdet : (r.collectionId == some input.id && r.userId == uid) with
        | true =>
          simp only [hdet, if_true]
          intro cid hcid hne
          simp at hcid
        | false =>
          simp only [hdet, Bool.false_eq_true, if_false]
          intro cid hcid hne
          obtain ⟨c, hc, hcid2, hcu⟩ := h r hr cid hcid hne
          refine ⟨c, ?_, hcid2, hcu⟩
          rw [List.mem_filter]
          refine ⟨hc, ?_⟩
          cases hA : (c.id == input.id && c.userId == uid) with
          | false => rfl
          | true =>
            exfalso
            simp only [Bool.and_eq_true, beq_iff_eq] at hA
            have hX : (r.collectionId == some input.id && r.userId == uid) = true := by
              simp only [Bool.and_eq_true, beq_iff_eq]
              exact ⟨by rw [hcid, ← hcid2, hA.1], by rw [← hcu, hA.2]⟩
            simp [hdet] at hX
  · simpa [hv] using h

theorem refOK_createR (ctx : Option String) (input : CreateRiddleInput)
    (now : Nat) (newId : String) (s : DBState) (h : refOK s) :
    refOK (createRiddle ctx input now newId s).2 := by
  unfold createRiddle
  by_cases hv : input.valid = true
  · simp only [hv, if_true]
    cases ctx with
    | none => exact h
    | some uid =>
      dsimp only
      cases hci : input.collectionId with
      | none =>
        dsimp only
        intro r hr
        rcases List.mem_append.mp hr with hr | hr
        · exact h r hr
        · simp only [List.mem_singleton] at hr
          subst hr
          intro cid hcid hne
          cases hcid
      | some cid0 =>
        dsimp only
        by_cases hne0 : (cid0 != "") = true
        · simp only [hne0, if_true]
          cases hany : s.collections.any
              (fun c => c.id == cid0 && c.userId == uid) with
          | true =>
            simp only [if_true]
            intro r hr
            rcases List.mem_append.mp hr with hr | hr
            · exact h r hr
            · simp only [List.mem_singleton] at hr
              subst hr
              intro cid hcid hne
              cases hcid
              simp only [List.any_eq_true, Bool.and_eq_true, beq_iff_eq] at hany
              obtain ⟨c, hc, h1, h2⟩ := hany
              exact ⟨c, hc, h1, h2⟩
          | false =>
            simp only [Bool.false_eq_true, if_false]
            exact h
        · rw [Bool.not_eq_true] at hne0
          simp only [hne0, Bool.false_eq_true, if_false]
          intro r hr
          rcases List.mem_append.mp hr with hr | hr
          · exact h r hr
          · simp only [List.mem_singleton] at hr
            subst hr
            intro cid hcid hne
            cases hcid
            rw [bne_eq_false_iff_eq] at hne0
            exact absurd hne0 hne
  · simpa [hv] using h

theorem refOK_updateR_target (cols : List Collection) (uid : String)
    (input : UpdateRiddleInput) (now : Nat) (r : Riddle)
    (hru : r.userId = uid) (hold : riddleRefOK cols r)
    (hsup : ∀ cid, input.collectionId = some (some cid) → cid ≠ "" →
      cols.any (fun c => c.id == cid && c.userId == uid) = true) :
    riddleRefOK cols (applyRiddleUpdate input now r) := by
  intro cid hcid hne
  simp only [applyRiddleUpdate] at hcid
  cases hci : input.collectionId with
  | none =>
    rw [hci] at hcid
    simp only [Option.getD_none] at hcid
    obtain ⟨c, hc, h1, h2⟩ := hold cid hcid hne
    exact ⟨c, hc, h1, h2⟩
  | some inner =>
    rw [hci] at hcid
    simp only [Option.getD_some] at hcid
    subst hcid
    have := hsup cid (by rw [hci]) hne
    simp only [List.any_eq_true, Bool.and_eq_true, beq_iff_eq] at this
    obtain ⟨c, hc, h1, h2⟩ := this
    refine ⟨c, hc, h1, ?_⟩
    simp only [applyRiddleUpdate, hru, h2]

theorem refOK_updateR (ctx : Option String) (input : UpdateRiddleInput)
    (now : Nat) (s : DBState) (h : refOK s) :
    refOK (updateRiddle ctx input now s).2 := by
  unfold updateRiddle
  by_cases hv : input.valid = true
  · simp only [hv, if_true]
    cases ctx with
    | none => exact h
    | some uid =>
      dsimp only
      cases hfind : s.riddles.find? (fun r => r.id == input.id && r.userId == uid) with
      | none => exact h
      | some ex =>
        dsimp only
        cases hci : input.collectionId with
        | none =>
          simp only [if_true]
          intro r2 hr2
          simp only [List.mem_map] at hr2
          obtain ⟨r, hr, rfl⟩ := hr2
          by_cases htgt : (r.id == input.id && r.userId == uid) = true
          · simp only [htgt, if_true]
            have hru : r.userId = uid := by
              simp only [Bool.and_eq_true, beq_iff_eq] at htgt
              exact htgt.2
            exact refOK_updateR_target s.collections uid input now r hru (h r hr)
              (by intro cid hc; rw [hci] at hc; cases hc)
          · simp only [htgt, if_false]
            exact h r hr
        | some inner =>
          cases inner with
          | none =>
            simp only [if_true]
            intro r2 hr2
            simp only [List.mem_map] at hr2
            obtain ⟨r, hr, rfl⟩ := hr2
            by_cases htgt : (r.id == input.id && r.userId == uid) = true
            · simp only [htgt, if_true]
              have hru : r.userId = uid := by
                simp only [Bool.and_eq_true, beq_iff_eq] at htgt
                exact htgt.2
              exact refOK_updateR_target s.collections uid input now r hru (h r hr)
                (by intro cid hc; rw [hci] at hc; cases hc)
            · simp only [htgt, if_false]
              exact h r hr
          | some cid0 =>
            dsimp only
            cases hor : (cid0 == "" ||
                s.collections.any (fun c => c.id == cid0 && c.userId == uid)) with
            | false =>
              simp only [Bool.false_eq_true, if_false]
              exact h
            | true =>
              simp only [if_true]
              intro r2 hr2
              simp only [List.mem_map] at hr2
              obtain ⟨r, hr, rfl⟩ := hr2
              by_cases htgt : (r.id == input.id && r.userId == uid) = true
              · simp only [htgt, if_true]
                have hru : r.userId = uid := by
                  simp only [Bool.and_eq_true, beq_iff_eq] at htgt
                  exact htgt.2
                refine refOK_updateR_target s.collections uid input now r hru (h r hr) ?_
                intro cid hc hne
                rw [hci] at hc
                cases hc
                simp only [Bool.or_eq_true, beq_iff_eq] at hor
                rcases hor with hor | hor
                · exact absurd hor hne
                · exact hor
              · simp only [htgt, if_false]
                exact h r hr
  · simpa [hv] using h

theorem refOK_deleteR (ctx : Option String) (input : IdInput) (s : DBState)
    (h : refOK s) : refOK (deleteRiddle ctx input s).2 := by
  unfold deleteRiddle
  by_cases hv : input.valid = true
  · simp only [hv, if_true]
    cases ctx with
    | none => exact h
    | some uid =>
      dsimp only
      cases hfind : s.riddles.find? (fun r => r.id == input.id && r.userId == uid) with
      | none => exact h
      | some ex =>
        dsimp only
        intro r hr
        rw [List.mem_filter] at hr
        exact h r hr.1
  · simpa [hv] using h

theorem refOK_step {s s' : DBState} (hstep : Step s s') (h : refOK s) : refOK s' := by
  cases hstep with
  | createColl ctx input now newId s _ _ => exact refOK_createColl ctx input now newId s h
  | updateColl ctx input now s => exact refOK_updateColl ctx input now s h
  | deleteColl ctx input now s => exact refOK_deleteColl ctx input now s h
  | createR ctx input now newId s _ _ => exact refOK_createR ctx input now newId s h
  | updateR ctx input now s => exact refOK_updateR ctx input now s h
  | deleteR ctx input s => exact refOK_deleteR ctx input s h
  | listC ctx input s => rw [listMyCollections_snd]; exact h
  | listR ctx input s => rw [listMyRiddles_snd]; exact h

/-! Claim theorems. -/

/-- C3 counterexample: the claim's invariant — every set (non-null)
`collectionId` resolves to a same-user collection — is violated in a
reachable state: from the empty store, `createRiddle` with
`collectionId = ""` succeeds (the truthiness-guarded ownership check is
skipped) and stores the empty string as a non-null dangling reference. -/
theorem C3_counterexample :
    Reachable danglingState ∧ specRefInvariantB danglingState = false := by
  constructor
  · have hstep := Step.createR (some "u")
      ⟨"q", "a", none, none, none, none, some "", none, none⟩ 0 "r1"
      { collections := [], riddles := [] } (by decide) (by intro r hr; cases hr)
    have hs : (createRiddle (some "u")
        ⟨"q", "a", none, none, none, none, some "", none, none⟩ 0 "r1"
        { collections := [], riddles := [] }).2 = danglingState := by decide
    rw [hs] at hstep
    exact Reachable.step Reachable.init hstep
  · decide

/-- C3 (amended): in every state reachable by the action handlers, every
riddle whose `collectionId` is set to a non-empty string references an
existing collection owned by the riddle's user; a supplied empty-string
`collectionId` bypasses the ownership check and is stored as-is. -/
theorem C3_referential_ownership (s : DBState) (h : Reachable s) : refOK s := by
  induction h with
  | init =>
    intro r hr
    cases hr
  | step _ hstep ih => exact refOK_step hstep ih

/-- Witness for C3: the invariant, evaluated at a concrete reachable state
(one collection created from the empty store). -/
theorem C3_referential_ownership_witness :
    refOK { collections := [logicColl], riddles := [] } := by
  refine C3_referential_ownership _ ?_
  have hstep := Step.createColl (some "u") ⟨"Logic", none, none, none⟩ 0 "c1"
    { collections := [], riddles := [] } (by decide) (by intro c hc; cases hc)
  have hs : (createRiddleCollection (some "u") ⟨"Logic", none, none, none⟩ 0 "c1"
      { collections := [], riddles := [] }).2 =
      { collections := [logicColl], riddles := [] } := by decide
  rw [hs] at hstep
  exact Reachable.step Reachable.init hstep

/-- C10: listing is read-only — `listMyCollections` and `listMyRiddles`
leave the whole store (both tables) unchanged, on every input, caller and
state, successful or not. -/
theorem C10_listing_read_only (ctx : Option String) (ic : ListCollectionsInput)
    (ir : ListRiddlesInput) (s : DBState) :
    (listMyCollections ctx ic s).2 = s ∧ (listMyRiddles ctx ir s).2 = s :=
  ⟨listMyCollections_snd ctx ic s, listMyRiddles_snd ctx ir s⟩

/-- C9: with no authenticated user, every operation (on schema-valid input,
which is checked first) fails with `UNAUTHORIZED` and leaves the store
unchanged — the result does not depend on the store's contents at all. -/
theorem C9_unauthorized (s : DBState) (now : Nat) (newId : String)
    (icc : CreateCollectionInput) (iuc : UpdateCollectionInput) (idc : IdInput)
    (icr : CreateRiddleInput) (iur : UpdateRiddleInput) (idr : IdInput)
    (ilc : ListCollectionsInput) (ilr : ListRiddlesInput) :
    (icc.valid = true →
      createRiddleCollection none icc now newId s = (.error .UNAUTHORIZED, s)) ∧
    (iuc.valid = true →
      updateRiddleCollection none iuc now s = (.error .UNAUTHORIZED, s)) ∧
    (idc.valid = true →
      deleteRiddleCollection none idc now s = (.error .UNAUTHORIZED, s)) ∧
    (icr.valid = true →
      createRiddle none icr now newId s = (.error .UNAUTHORIZED, s)) ∧
    (iur.valid = true →
      updateRiddle none iur now s = (.error .UNAUTHORIZED, s)) ∧
    (idr.valid = true →
      deleteRiddle none idr s = (.error .UNAUTHORIZED, s)) ∧
    (ilc.valid = true →
      listMyCollections none ilc s = (.error .UNAUTHORIZED, s)) ∧
    (ilr.valid = true →
      listMyRiddles none ilr s = (.error .UNAUTHORIZED, s)) := by
  refine ⟨?_, ?_, ?_, ?_, ?_, ?_, ?_, ?_⟩ <;> intro hval <;>
    simp [createRiddleCollection, updateRiddleCollection, deleteRiddleCollection,
      createRiddle, updateRiddle, deleteRiddle, listMyCollections,
      listMyRiddles, hval]

/-- Witness for C9: two concrete unauthenticated calls on valid inputs. -/
theorem C9_unauthorized_witness :
    createRiddleCollection none ⟨"Logic", none, none, none⟩ 0 "c1"
      { collections := [], riddles := [] } =
      (.error .UNAUTHORIZED, { collections := [], riddles := [] }) ∧
    listMyRiddles none ⟨none, none, none, none, none, none⟩
      { collections := [], riddles := [] } =
      (.error .UNAUTHORIZED, { collections := [], riddles := [] }) :=
  ⟨(C9_unauthorized { collections := [], riddles := [] } 0 "c1"
      ⟨"Logic", none, none, none⟩ ⟨"x", none, none, none, none⟩ ⟨"x"⟩
      ⟨"q", "a", none, none, none, none, none, none, none⟩
      ⟨"x", none, none, none, none, none, none, none, none, none⟩ ⟨"x"⟩
      ⟨none, none⟩ ⟨none, none, none, none, none, none⟩).1 (by decide),
   (C9_unauthorized { collections := [], riddles := [] } 0 "c1"
      ⟨"Logic", none, none, none⟩ ⟨"x", none, none, none, none⟩ ⟨"x"⟩
      ⟨"q", "a", none, none, none, none, none, none, none⟩
      ⟨"x", none, none, none, none, none, none, none, none, none⟩ ⟨"x"⟩
      ⟨none, none⟩ ⟨none, none, none, none, none, none⟩).2.2.2.2.2.2.2 (by decide)⟩

/-- C5: for a schema-valid id that does not identify a row owned by the
caller — absent or owned by another user — each of the four targeted
mutations fails with `NOT_FOUND` and leaves the store unchanged. -/
theorem C5_not_found (uid : String) (s : DBState) (now : Nat)
    (iuc : UpdateCollectionInput) (idc : IdInput) (iur : UpdateRiddleInput)
    (idr : IdInput) :
    (iuc.valid = true →
      (∀ c ∈ s.collections, ¬(c.id = iuc.id ∧ c.userId = uid)) →
      updateRiddleCollection (some uid) iuc now s = (.error .NOT_FOUND, s)) ∧
    (idc.valid = true →
      (∀ c ∈ s.collections, ¬(c.id = idc.id ∧ c.userId = uid)) →
      deleteRiddleCollection (some uid) idc now s = (.error .NOT_FOUND, s)) ∧
    (iur.valid = true →
      (∀ r ∈ s.riddles, ¬(r.id = iur.id ∧ r.userId = uid)) →
      updateRiddle (some uid) iur now s = (.error .NOT_FOUND, s)) ∧
    (idr.valid = true →
      (∀ r ∈ s.riddles, ¬(r.id = idr.id ∧ r.userId = uid)) →
      deleteRiddle (some uid) idr s = (.error .NOT_FOUND, s)) := by
  refine ⟨?_, ?_, ?_, ?_⟩
  · intro hval hnone
    have hfind : s.collections.find? (fun c => c.id == iuc.id && c.userId == uid)
        = none := by
      rw [List.find?_eq_none]
      intro c hc h
      simp only [Bool.and_eq_true, beq_iff_eq] at h
      exact hnone c hc h
    simp [updateRiddleCollection, hval, hfind]
  · intro hval hnone
    have hfind : s.collections.find? (fun c => c.id == idc.id && c.userId == uid)
        = none := by
      rw [List.find?_eq_none]
      intro c hc h
      simp only [Bool.and_eq_true, beq_iff_eq] at h
      exact hnone c hc h
    simp [deleteRiddleCollection, hval, hfind]
  · intro hval hnone
    have hfind : s.riddles.find? (fun r => r.id == iur.id && r.userId == uid)
        = none := by
      rw [List.find?_eq_none]
      intro r hr h
      simp only [Bool.and_eq_true, beq_iff_eq] at h
      exact hnone r hr h
    simp [updateRiddle, hval, hfind]
  · intro hval hnone
    have hfind : s.riddles.find? (fun r => r.id == idr.id && r.userId == uid)
        = none := by
      rw [List.find?_eq_none]
      intro r hr h
      simp only [Bool.and_eq_true, beq_iff_eq] at h
      exact hnone r hr h
    simp [deleteRiddle, hval, hfind]

/-- Witness for C5: user `u` targeting rows owned by user `v` gets
`NOT_FOUND` from all four mutations, with the store unchanged. -/
theorem C5_not_found_witness :
    updateRiddleCollection (some "u") ⟨"c9", none, none, none, some true⟩ 1
      mixedState = (.error .NOT_FOUND, mixedState) ∧
    deleteRiddleCollection (some "u") ⟨"c9"⟩ 1 mixedState =
      (.error .NOT_FOUND, mixedState) ∧
    updateRiddle (some "u") ⟨"r9", none, none, none, none, none, none, none,
      none, some true⟩ 1 mixedState = (.error .NOT_FOUND, mixedState) ∧
    deleteRiddle (some "u") ⟨"r9"⟩ mixedState =
      (.error .NOT_FOUND, mixedState) := by
  have h := C5_not_found "u" mixedState 1 ⟨"c9", none, none, none, some true⟩
    ⟨"c9"⟩ ⟨"r9", none, none, none, none, none, none, none, none, some true⟩ ⟨"r9"⟩
  exact ⟨h.1 (by decide) (by decide), h.2.1 (by decide) (by decide),
    h.2.2.1 (by decide) (by decide), h.2.2.2 (by decide) (by decide)⟩

/-- C4 counterexample: `collectionId = ""` is non-null and identifies no
collection owned by the caller, yet `createRiddle` does not fail with
`FORBIDDEN` — it succeeds and stores the riddle with `collectionId = ""`. -/
theorem C4_counterexample :
    createRiddle (some "u") ⟨"q", "a", none, none, none, none, some "", none, none⟩
      0 "r1" { collections := [], riddles := [] } =
    (.ok danglingRiddle, danglingState) := by
  simp [createRiddle, CreateRiddleInput.valid, validOptDifficulty,
    danglingRiddle, danglingState]

/-- C4 (amended): for every supplied non-empty `collectionId` that does not
identify a collection owned by the caller, `createRiddle` fails with
`FORBIDDEN` and leaves the store unchanged, and `updateRiddle` on an
existing riddle of the caller does likewise; a supplied empty-string
`collectionId` skips the ownership check entirely. -/
theorem C4_forbidden (uid cid : String) (s : DBState) (now : Nat)
    (newId : String) (icr : CreateRiddleInput) (iur : UpdateRiddleInput)
    (hne : cid ≠ "")
    (hnown : ∀ c ∈ s.collections, ¬(c.id = cid ∧ c.userId = uid)) :
    (icr.valid = true → icr.collectionId = some cid →
      createRiddle (some uid) icr now newId s = (.error .FORBIDDEN, s)) ∧
    (iur.valid = true → iur.collectionId = some (some cid) →
      (s.riddles.find? (fun r => r.id == iur.id && r.userId == uid)).isSome = true →
      updateRiddle (some uid) iur now s = (.error .FORBIDDEN, s)) := by
  have hany : s.collections.any (fun c => c.id == cid && c.userId == uid)
      = false := by
    rw [List.any_eq_false]
    intro c hc h
    simp only [Bool.and_eq_true, beq_iff_eq] at h
    exact hnown c hc h
  constructor
  · intro hval hci
    simp [createRiddle, hval, hci, hne, hany]
  · intro hval hci hsome
    cases hfind : s.riddles.find? (fun r => r.id == iur.id && r.userId == uid) with
    | none => rw [hfind] at hsome; simp at hsome
    | some ex => simp [updateRiddle, hval, hci, hfind, hne, hany]

/-- Witness for C4: user `u` referencing user `v`'s collection `c9` gets
`FORBIDDEN` from both `createRiddle` and `updateRiddle`, store unchanged. -/
theorem C4_forbidden_witness :
    createRiddle (some "u") ⟨"q2", "a2", none, none, none, none, some "c9",
      none, none⟩ 1 "r2" mixedState = (.error .FORBIDDEN, mixedState) ∧
    updateRiddle (some "u") ⟨"r1", none, none, none, none, none, none,
      some (some "c9"), none, none⟩ 1 mixedState =
      (.error .FORBIDDEN, mixedState) := by
  have h := C4_forbidden "u" "c9" mixedState 1 "r2"
    ⟨"q2", "a2", none, none, none, none, some "c9", none, none⟩
    ⟨"r1", none, none, none, none, none, none, some (some "c9"), none, none⟩
    (by decide) (by decide)
  exact ⟨h.1 (by decide) rfl, h.2 (by decide) rfl (by decide)⟩

/-- C8: schema validation precedes everything: an empty required string
(collection name, riddle question or answer, any target id), a difficulty
outside the enum, a page below 1 or a pageSize outside 1..100 is rejected
with the validation error for every caller (authenticated or not) and
every store, with the store unchanged and a result independent of the
store; omitted page and pageSize behave exactly as page 1 and pageSize 20. -/
theorem C8_validation (ctx : Option String) (s : DBState) (now : Nat)
    (newId : String) (icc : CreateCollectionInput) (iuc : UpdateCollectionInput)
    (idc : IdInput) (icr : CreateRiddleInput) (iur : UpdateRiddleInput)
    (idr : IdInput) (ilc : ListCollectionsInput) (ilr : ListRiddlesInput) :
    (icc.name = "" →
      createRiddleCollection ctx icc now newId s = (.error .BAD_REQUEST, s)) ∧
    (icr.question = "" ∨ icr.answer = "" →
      createRiddle ctx icr now newId s = (.error .BAD_REQUEST, s)) ∧
    (∀ d, icr.difficulty = some d → validDifficulty d = false →
      createRiddle ctx icr now newId s = (.error .BAD_REQUEST, s)) ∧
    (iuc.id = "" →
      updateRiddleCollection ctx iuc now s = (.error .BAD_REQUEST, s)) ∧
    (idc.id = "" →
      deleteRiddleCollection ctx idc now s = (.error .BAD_REQUEST, s)) ∧
    (iur.id = "" →
      updateRiddle ctx iur now s = (.error .BAD_REQUEST, s)) ∧
    (idr.id = "" →
      deleteRiddle ctx idr s = (.error .BAD_REQUEST, s)) ∧
    (∀ d, ilr.difficulty = some d → validDifficulty d = false →
      listMyRiddles ctx ilr s = (.error .BAD_REQUEST, s)) ∧
    (∀ p, ilc.page = some p → p < 1 →
      listMyCollections ctx ilc s = (.error .BAD_REQUEST, s)) ∧
    (∀ p, ilc.pageSize = some p → (p < 1 ∨ 100 < p) →
      listMyCollections ctx ilc s = (.error .BAD_REQUEST, s)) ∧
    (∀ p, ilr.page = some p → p < 1 →
      listMyRiddles ctx ilr s = (.error .BAD_REQUEST, s)) ∧
    (∀ p, ilr.pageSize = some p → (p < 1 ∨ 100 < p) →
      listMyRiddles ctx ilr s = (.error .BAD_REQUEST, s)) ∧
    (listMyCollections ctx { ilc with page := none, pageSize := none } s =
      listMyCollections ctx { ilc with page := some 1, pageSize := some 20 } s) ∧
    (listMyRiddles ctx { ilr with page := none, pageSize := none } s =
      listMyRiddles ctx { ilr with page := some 1, pageSize := some 20 } s) := by
  refine ⟨?_, ?_, ?_, ?_, ?_, ?_, ?_, ?_, ?_, ?_, ?_, ?_, ?_, ?_⟩
  · intro h
    simp [createRiddleCollection, CreateCollectionInput.valid, h]
  · intro h
    rcases h with h | h <;>
      simp [createRiddle, CreateRiddleInput.valid, h]
  · intro d hd hbad
    simp [createRiddle, CreateRiddleInput.valid, validOptDifficulty, hd, hbad]
  · intro h
    simp [updateRiddleCollection, UpdateCollectionInput.valid, h]
  · intro h
    simp [deleteRiddleCollection, IdInput.valid, h]
  · intro h
    simp [updateRiddle, UpdateRiddleInput.valid, h]
  · intro h
    simp [deleteRiddle, IdInput.valid, h]
  · intro d hd hbad
    simp [listMyRiddles, ListRiddlesInput.valid, validOptDifficulty, hd, hbad]
  · intro p hp hlt
    have hnp : ¬(0 < p) := by omega
    simp [listMyCollections, ListCollectionsInput.valid, validPage, hp, hnp]
  · intro p hp hlt
    have hvp : validPageSize (some p) = false := by
      simp only [validPageSize]
      rcases hlt with hlt | hlt
      · have hnp : ¬(0 < p) := by omega
        simp [hnp]
      · have hnp : ¬(p ≤ 100) := by omega
        simp [hnp]
    simp [listMyCollections, ListCollectionsInput.valid, hp, hvp]
  · intro p hp hlt
    have hnp : ¬(0 < p) := by omega
    simp [listMyRiddles, ListRiddlesInput.valid, validPage, hp, hnp]
  · intro p hp hlt
    have hvp : validPageSize (some p) = false := by
      simp only [validPageSize]
      rcases hlt with hlt | hlt
      · have hnp : ¬(0 < p) := by omega
        simp [hnp]
      · have hnp : ¬(p ≤ 100) := by omega
        simp [hnp]
    simp [listMyRiddles, ListRiddlesInput.valid, hp, hvp]
  · rfl
  · rfl

/-- Witness for C8: an empty collection name is rejected with the
validation error on a concrete call, and a concrete list call with omitted
page and pageSize equals the same call with page 1 and pageSize 20. -/
theorem C8_validation_witness :
    createRiddleCollection (some "u") ⟨"", none, none, none⟩ 0 "c1"
      mixedState = (.error .BAD_REQUEST, mixedState) ∧
    listMyCollections (some "u") ⟨none, none⟩ mixedState =
      listMyCollections (some "u") ⟨some 1, some 20⟩ mixedState := by
  have h := C8_validation (some "u") mixedState 0 "c1" ⟨"", none, none, none⟩
    ⟨"x", none, none, none, none⟩ ⟨"x"⟩
    ⟨"q", "a", none, none, none, none, none, none, none⟩
    ⟨"x", none, none, none, none, none, none, none, none, none⟩ ⟨"x"⟩
    ⟨none, none⟩ ⟨none, none, none, none, none, none⟩
  exact ⟨h.1 rfl, h.2.2.2.2.2.2.2.2.2.2.2.2.1⟩

/-- C7 counterexample: with a provided `category = ""` filter, the claim
predicts an empty result (no stored riddle has category `""`), but the
handler ignores the empty-string filter and returns the riddle whose
category is `"x"`. -/
theorem C7_counterexample :
    listMyRiddles (some "u") ⟨none, none, none, some "", none, none⟩ catState =
      (.ok { items := [catRiddle], total := 1 }, catState) ∧
    catState.riddles.filter
      (specRiddleMatches "u" ⟨none, none, none, some "", none, none⟩) = [] := by
  constructor
  · rfl
  · decide

/-- C7 (amended): `listMyRiddles` returns exactly the page window — drop
`(page-1)*pageSize`, take `pageSize` — of the rows matching the caller's
`userId` conjoined with each provided truthy filter (a provided
empty-string `collectionId` or `category` is ignored), and the returned
`total` is the length of the returned page, not the full match count;
`listMyCollections` pages the caller's collections the same way with the
same `total` behaviour. -/
theorem C7_listing (uid : String) (s : DBState) (ilr : ListRiddlesInput)
    (ilc : ListCollectionsInput) :
    (∀ out s', listMyRiddles (some uid) ilr s = (.ok out, s') →
      out.items = ((s.riddles.filter (riddleFilters uid ilr)).drop
          ((ilr.page.getD 1 - 1) * ilr.pageSize.getD 20).toNat).take
          (ilr.pageSize.getD 20).toNat ∧
      out.total = out.items.length ∧ s' = s) ∧
    (∀ out s', listMyCollections (some uid) ilc s = (.ok out, s') →
      out.items = ((s.collections.filter (fun c => c.userId == uid)).drop
          ((ilc.page.getD 1 - 1) * ilc.pageSize.getD 20).toNat).take
          (ilc.pageSize.getD 20).toNat ∧
      out.total = out.items.length ∧ s' = s) := by
  constructor
  · intro out s' hok
    by_cases hv : ilr.valid = true
    · simp only [listMyRiddles, hv, if_true] at hok
      injection hok with h1 h2
      injection h1 with h1
      subst h2
      subst h1
      refine ⟨?_, rfl, rfl⟩
      dsimp only [pageWindow]
      rw [List.filter_congr]
      intro r _
      exact filters_all_eq_riddleFilters uid ilr r
    · simp [listMyRiddles, hv] at hok
  · intro out s' hok
    by_cases hv : ilc.valid = true
    · simp only [listMyCollections, hv, if_true] at hok
      injection hok with h1 h2
      injection h1 with h1
      subst h2
      subst h1
      exact ⟨rfl, rfl, rfl⟩
    · simp [listMyCollections, hv] at hok

/-- Witness for C7: both list operations evaluated on a concrete store and
concrete filters. -/
theorem C7_listing_witness :
    ({ items := [catRiddle], total := 1 } : ListOut Riddle).items =
      ((catState.riddles.filter (riddleFilters "u"
          ⟨none, none, none, some "x", none, none⟩)).drop
        (((1 : Int) - 1) * 20).toNat).take (20 : Int).toNat ∧
    ({ items := [], total := 0 } : ListOut Collection).items =
      ((catState.collections.filter (fun c => c.userId == "u")).drop
        (((1 : Int) - 1) * 20).toNat).take (20 : Int).toNat := by
  have h := C7_listing "u" catState ⟨none, none, none, some "x", none, none⟩
    ⟨none, none⟩
  exact ⟨(h.1 { items := [catRiddle], total := 1 } catState rfl).1,
    (h.2 { items := [], total := 0 } catState rfl).1⟩

/-- C2: a successful `deleteRiddleCollection` by the owner removes the
collection (no collection with that id remains, given the primary-key
uniqueness of ids), rewrites every riddle that referenced it to
`collectionId = null` with `updatedAt` refreshed while leaving all other
riddles untouched, leaves no riddle referencing the collection, and
deletes no riddle row. Stated for stores satisfying the referential
ownership of C3: every riddle referencing the collection belongs to the
caller, as in every reachable state. -/
theorem C2_delete_detaches (uid : String) (s : DBState) (now : Nat)
    (inp : IdInput)
    (huniq : s.collections.Pairwise (fun a b => a.id ≠ b.id))
    (hown : ∀ r ∈ s.riddles, r.collectionId = some inp.id → r.userId = uid) :
    ∀ out s', deleteRiddleCollection (some uid) inp now s = (.ok out, s') →
      (∀ c ∈ s'.collections, c.id ≠ inp.id) ∧
      s'.riddles = s.riddles.map (fun r =>
        if r.collectionId = some inp.id then
          { r with collectionId := none, updatedAt := now }
        else r) ∧
      (∀ r ∈ s'.riddles, r.collectionId ≠ some inp.id) ∧
      s'.riddles.length = s.riddles.length := by
  intro out s' hok
  by_cases hv : inp.valid = true
  · simp only [deleteRiddleCollection, hv, if_true] at hok
    cases hfind : s.collections.find?
        (fun c => c.id == inp.id && c.userId == uid) with
    | none => simp only [hfind] at hok; cases hok
    | some ex =>
      simp only [hfind] at hok
      injection hok with h1 h2
      subst h2
      have hex := List.mem_of_find?_eq_some hfind
      have hexp := List.find?_some hfind
      simp only [Bool.and_eq_true, beq_iff_eq] at hexp
      refine ⟨?_, ?_, ?_, ?_⟩
      · intro c hc heq
        rw [List.mem_filter] at hc
        obtain ⟨hcm, hcp⟩ := hc
        have hce : c = ex := pairwise_id_unique huniq hcm hex
          (heq.trans hexp.1.symm)
        subst hce
        simp [heq, hexp.2] at hcp
      · refine List.map_congr_left ?_
        intro r hr
        by_cases hrc : r.collectionId = some inp.id
        · have hru := hown r hr hrc
          simp [hrc, hru]
        · simp [hrc]
      · intro r2 hr2
        simp only [List.mem_map] at hr2
        obtain ⟨r, hr, rfl⟩ := hr2
        cases hdet : (r.collectionId == some inp.id && r.userId == uid) with
        | true =>
          simp only [hdet, if_true]
          intro hcid
          simp at hcid
        | false =>
          simp only [hdet, Bool.false_eq_true, if_false]
          intro hcid
          have hru := hown r hr hcid
          simp [hcid, hru] at hdet
      · exact List.length_map _ _
  · simp [deleteRiddleCollection, hv] at hok

/-- Witness for C2: deleting collection `c1` from a concrete two-riddle
store detaches the riddle that referenced it, keeps the other riddle
as-is, and removes the collection. -/
theorem C2_delete_detaches_witness :
    (∀ c ∈ afterDeleteState.collections, c.id ≠ "c1") ∧
    afterDeleteState.riddles = linkedState.riddles.map (fun r =>
      if r.collectionId = some "c1" then
        { r with collectionId := none, updatedAt := 5 }
      else r) ∧
    (∀ r ∈ afterDeleteState.riddles, r.collectionId ≠ some "c1") ∧
    afterDeleteState.riddles.length = linkedState.riddles.length :=
  C2_delete_detaches "u" linkedState 5 ⟨"c1"⟩ (by decide) (by decide)
    () afterDeleteState (by rfl)

/-- C6: partial-update frame. On a successful `updateRiddle`, the returned
record — which is also the target row stored in the new state — carries the
supplied value for every supplied field, the previous value for every
omitted field, a refreshed `updatedAt`, and unchanged `id`, `userId` and
`createdAt`; the collections table is untouched. The same holds for
`updateRiddleCollection`'s target row and the riddles table. -/
theorem C6_partial_update (uid : String) (s : DBState) (now : Nat)
    (iur : UpdateRiddleInput) (iuc : UpdateCollectionInput) :
    (∀ ex r s',
      s.riddles.find? (fun x => x.id == iur.id && x.userId == uid) = some ex →
      updateRiddle (some uid) iur now s = (.ok r, s') →
      r.id = ex.id ∧ r.userId = ex.userId ∧ r.createdAt = ex.createdAt ∧
      r.updatedAt = now ∧
      r.question = (match iur.question with
        | some v => v
        | none => ex.question) ∧
      r.answer = (match iur.answer with
        | some v => v
        | none => ex.answer) ∧
      r.hint = (match iur.hint with
        | some v => some v
        | none => ex.hint) ∧
      r.difficulty = (match iur.difficulty with
        | some v => some v
        | none => ex.difficulty) ∧
      r.category = (match iur.category with
        | some v => some v
        | none => ex.category) ∧
      r.language = (match iur.language with
        | some v => some v
        | none => ex.language) ∧
      r.collectionId = (match iur.collectionId with
        | some v => v
        | none => ex.collectionId) ∧
      r.isFavorite = (match iur.isFavorite with
        | some v => v
        | none => ex.isFavorite) ∧
      r.isPublic = (match iur.isPublic with
        | some v => v
        | none => ex.isPublic) ∧
      s'.riddles.find? (fun x => x.id == iur.id && x.userId == uid) = some r ∧
      s'.collections = s.collections) ∧
    (∀ ex col s',
      s.collections.find? (fun x => x.id == iuc.id && x.userId == uid) = some ex →
      updateRiddleCollection (some uid) iuc now s = (.ok col, s') →
      col.id = ex.id ∧ col.userId = ex.userId ∧ col.createdAt = ex.createdAt ∧
      col.updatedAt = now ∧
      col.name = (match iuc.name with
        | some v => v
        | none => ex.name) ∧
      col.description = (match iuc.description with
        | some v => some v
        | none => ex.description) ∧
      col.icon = (match iuc.icon with
        | some v => some v
        | none => ex.icon) ∧
      col.isDefault = (match iuc.isDefault with
        | some v => v
        | none => ex.isDefault) ∧
      s'.riddles = s.riddles) := by
  constructor
  · intro ex r s' hfind hok
    by_cases hv : iur.valid = true
    · simp only [updateRiddle, hv, if_true, hfind] at hok
      split at hok
      · injection hok with h1 h2
        injection h1 with h1
        subst h1
        subst h2
        have hpex := List.find?_some hfind
        refine ⟨rfl, rfl, rfl, rfl, ?_, ?_, ?_, ?_, ?_, ?_, ?_, ?_, ?_, ?_, rfl⟩
        · simp only [applyRiddleUpdate]
          cases hq : iur.question <;> rfl
        · simp only [applyRiddleUpdate]
          cases hq : iur.answer <;> rfl
        · simp only [applyRiddleUpdate, setOpt]
          cases hq : iur.hint <;> rfl
        · simp only [applyRiddleUpdate, setOpt]
          cases hq : iur.difficulty <;> rfl
        · simp only [applyRiddleUpdate, setOpt]
          cases hq : iur.category <;> rfl
        · simp only [applyRiddleUpdate, setOpt]
          cases hq : iur.language <;> rfl
        · simp only [applyRiddleUpdate]
          cases hq : iur.collectionId <;> rfl
        · simp only [applyRiddleUpdate]
          cases hq : iur.isFavorite <;> rfl
        · simp only [applyRiddleUpdate]
          cases hq : iur.isPublic <;> rfl
        · have hg := find?_map_pred_stable
            (fun x => x.id == iur.id && x.userId == uid)
            (fun x => if x.id == iur.id && x.userId == uid then
              applyRiddleUpdate iur now x else x)
            (by
              intro x
              by_cases hpx : (x.id == iur.id && x.userId == uid) = true
              · simp only [hpx, if_true]
                simp only [applyRiddleUpdate]
                exact hpx.symm ▸ rfl
              · simp only [Bool.not_eq_true] at hpx
                simp only [hpx, Bool.false_eq_true, if_false])
            s.riddles ex hfind
          rw [hg]
          simp [hpex]
      · simp at hok
    · simp [updateRiddle, hv] at hok
  · intro ex col s' hfind hok
    by_cases hv : iuc.valid = true
    · simp only [updateRiddleCollection, hv, if_true, hfind] at hok
      cases htb : truthyBool iuc.isDefault with
      | true =>
        simp only [htb, if_true] at hok
        injection hok with h1 h2
        injection h1 with h1
        subst h1
        subst h2
        have hb : iuc.isDefault = some true := by
          cases hb0 : iuc.isDefault with
          | none => rw [hb0] at htb; cases htb
          | some b =>
            rw [hb0] at htb
            simp only [truthyBool] at htb
            rw [htb]
        refine ⟨rfl, rfl, rfl, rfl, ?_, ?_, ?_, ?_, rfl⟩
        · simp only [applyCollUpdate]
          cases hq : iuc.name <;> rfl
        · simp only [applyCollUpdate, setOpt]
          cases hq : iuc.description <;> rfl
        · simp only [applyCollUpdate, setOpt]
          cases hq : iuc.icon <;> rfl
        · simp only [applyCollUpdate, hb]
          rfl
      | false =>
        simp only [htb, Bool.false_eq_true, if_false] at hok
        injection hok with h1 h2
        injection h1 with h1
        subst h1
        subst h2
        refine ⟨rfl, rfl, rfl, rfl, ?_, ?_, ?_, ?_, rfl⟩
        · simp only [applyCollUpdate]
          cases hq : iuc.name <;> rfl
        · simp only [applyCollUpdate, setOpt]
          cases hq : iuc.description <;> rfl
        · simp only [applyCollUpdate, setOpt]
          cases hq : iuc.icon <;> rfl
        · simp only [applyCollUpdate]
          cases hq : iuc.isDefault <;> rfl
    · simp [updateRiddleCollection, hv] at hok

/-- Witness for C6: a concrete riddle update supplying only `hint` and
`isPublic`, and a concrete collection update supplying only `name` and
`isDefault`, each leaving every other field of the target unchanged. -/
theorem C6_partial_update_witness :
    updatedPlain.hint = some "H" ∧ updatedPlain.isPublic = true ∧
    updatedPlain.question = plainRiddle.question ∧
    updatedPlain.answer = plainRiddle.answer ∧
    updatedPlain.collectionId = plainRiddle.collectionId ∧
    updatedPlain.updatedAt = 7 ∧ updatedPlain.createdAt = plainRiddle.createdAt ∧
    renamedColl.name = "Renamed" ∧ renamedColl.isDefault = true ∧
    renamedColl.description = logicColl.description ∧
    renamedColl.createdAt = logicColl.createdAt := by
  have h1 := (C6_partial_update "u" mixedState 7
    ⟨"r1", none, none, some "H", none, none, none, none, none, some true⟩
    ⟨"c1", none, none, none, none⟩).1 plainRiddle updatedPlain
    afterRiddleUpdState (by rfl) (by rfl)
  have h2 := (C6_partial_update "u" linkedState 7
    ⟨"r1", none, none, none, none, none, none, none, none, none⟩
    ⟨"c1", some "Renamed", none, none, some true⟩).2 logicColl renamedColl
    afterCollUpdState (by rfl) (by rfl)
  exact ⟨h1.2.2.2.2.2.2.1, h1.2.2.2.2.2.2.2.2.2.2.2.2.1,
    h1.2.2.2.2.1, h1.2.2.2.2.2.1, h1.2.2.2.2.2.2.2.2.2.2.1,
    h1.2.2.2.1, h1.2.2.1,
    h2.2.2.2.2.1, h2.2.2.2.2.2.2.2.1, h2.2.2.2.2.2.1, h2.2.2.1⟩

/-- C1: single-default invariant. From a state where the caller has at most
one default collection (and ids are unique, as the primary key guarantees,
with the generated id fresh), a successful `createRiddleCollection` or
`updateRiddleCollection` leaves at most one default collection for the
caller; and when the call supplied `isDefault: true`, exactly the
created/target collection is the caller's default. -/
theorem C1_single_default (uid : String) (s : DBState) (now : Nat)
    (newId : String) (icc : CreateCollectionInput) (iuc : UpdateCollectionInput)
    (hpre : (defaultsOf s uid).length ≤ 1)
    (huniq : s.collections.Pairwise (fun a b => a.id ≠ b.id))
    (hfresh : ∀ c ∈ s.collections, c.id ≠ newId) :
    (∀ col s', createRiddleCollection (some uid) icc now newId s = (.ok col, s') →
      (defaultsOf s' uid).length ≤ 1 ∧
      (icc.isDefault = some true →
        ∀ c ∈ s'.collections, c.userId = uid →
          (c.isDefault = true ↔ c.id = newId))) ∧
    (∀ col s', updateRiddleCollection (some uid) iuc now s = (.ok col, s') →
      (defaultsOf s' uid).length ≤ 1 ∧
      (iuc.isDefault = some true →
        ∀ c ∈ s'.collections, c.userId = uid →
          (c.isDefault = true ↔ c.id = iuc.id))) := by
  constructor
  · intro col s' hok
    by_cases hv : icc.valid = true
    · simp only [createRiddleCollection, hv, if_true] at hok
      cases htb : truthyBool icc.isDefault with
      | true =>
        simp only [htb, if_true] at hok
        injection hok with h1 h2
        subst h2
        have hb : icc.isDefault = some true := by
          cases hb0 : icc.isDefault with
          | none => rw [hb0] at htb; cases htb
          | some b =>
            rw [hb0] at htb
            simp only [truthyBool] at htb
            rw [htb]
        constructor
        · simp only [defaultsOf]
          rw [List.filter_append, clearDefaults_no_defaults]
          simp [hb]
        · intro _ c hc hcu
          rcases List.mem_append.mp hc with hc2 | hc2
          · simp only [clearDefaults, List.mem_map] at hc2
            obtain ⟨c0, hc0, rfl⟩ := hc2
            cases hcu0 : (c0.userId == uid) with
            | true => simp_all [hfresh c0 hc0]
            | false => simp_all
          · simp only [List.mem_singleton] at hc2
            subst hc2
            simp [hb]
      | false =>
        simp only [htb, Bool.false_eq_true, if_false] at hok
        injection hok with h1 h2
        subst h2
        have hgd : icc.isDefault.getD false = false := by
          cases hb0 : icc.isDefault with
          | none => rfl
          | some b =>
            rw [hb0] at htb
            simp only [truthyBool] at htb
            rw [htb]
            rfl
        constructor
        · simp only [defaultsOf] at hpre ⊢
          rw [List.filter_append]
          simp [hgd, hpre]
        · intro hb0
          rw [hb0] at htb
          simp [truthyBool] at htb
    · simp [createRiddleCollection, hv] at hok
  · intro col s' hok
    by_cases hv : iuc.valid = true
    · simp only [updateRiddleCollection, hv, if_true] at hok
      cases hfind : s.collections.find?
          (fun c => c.id == iuc.id && c.userId == uid) with
      | none => simp only [hfind] at hok; cases hok
      | some ex =>
        simp only [hfind] at hok
        cases htb : truthyBool iuc.isDefault with
        | true =>
          simp only [htb, if_true] at hok
          injection hok with h1 h2
          subst h2
          have hb : iuc.isDefault = some true := by
            cases hb0 : iuc.isDefault with
            | none => rw [hb0] at htb; cases htb
            | some b =>
              rw [hb0] at htb
              simp only [truthyBool] at htb
              rw [htb]
          have hiff : ∀ c ∈ List.map (fun c =>
              if (c.id == iuc.id && c.userId == uid) = true then
                applyCollUpdate iuc now c else c)
              (clearDefaults uid now s.collections),
              c.userId = uid → (c.isDefault = true ↔ c.id = iuc.id) := by
            intro c hc hcu
            simp only [clearDefaults, List.map_map, List.mem_map,
              Function.comp] at hc
            obtain ⟨c0, hc0, rfl⟩ := hc
            cases h1 : (c0.userId == uid) with
            | true =>
              cases h2 : (c0.id == iuc.id) with
              | true => simp_all [applyCollUpdate, hb]
              | false => simp_all [applyCollUpdate]
            | false => simp_all
          refine ⟨?_, fun _ => hiff⟩
          simp only [defaultsOf]
          refine length_le_one_of_pairwise_ne Collection.id iuc.id ?_ ?_
          · refine List.Pairwise.sublist (List.filter_sublist _) ?_
            refine pairwise_ne_id_map _ ?_ ?_
            · intro c
              cases hcc : (c.id == iuc.id && c.userId == uid) with
              | true => simp [hcc, applyCollUpdate]
              | false => simp [hcc]
            · simp only [clearDefaults]
              refine pairwise_ne_id_map _ ?_ huniq
              intro c
              cases hcc : (c.userId == uid) with
              | true => simp [hcc]
              | false => simp [hcc]
          · intro c hc
            rw [List.mem_filter] at hc
            obtain ⟨hcm, hcp⟩ := hc
            simp only [Bool.and_eq_true, beq_iff_eq] at hcp
            exact (hiff c hcm hcp.1).mp hcp.2
        | false =>
          simp only [htb, Bool.false_eq_true, if_false] at hok
          injection hok with h1 h2
          subst h2
          constructor
          · simp only [defaultsOf] at hpre ⊢
            refine le_trans (filter_map_length_le s.collections _ _ _ ?_) hpre
            intro x _ hpx
            cases hcc : (x.id == iuc.id && x.userId == uid) with
            | false => rw [hcc] at hpx; simpa using hpx
            | true =>
              rw [hcc] at hpx
              simp only [if_true] at hpx
              simp only [applyCollUpdate, Bool.and_eq_true] at hpx
              obtain ⟨hpu, hpd⟩ := hpx
              simp only [Bool.and_eq_true]
              refine ⟨hpu, ?_⟩
              cases hb0 : iuc.isDefault with
              | none =>
                rw [hb0] at hpd
                exact hpd
              | some b =>
                rw [hb0] at htb
                simp only [truthyBool] at htb
                subst htb
                rw [hb0] at hpd
                cases hpd
          · intro hb0
            rw [hb0] at htb
            simp [truthyBool] at htb
    · simp [updateRiddleCollection, hv] at hok

/-- Witness for C1: creating a second collection with `isDefault: true`
makes it the single default; the first collection is no longer default. -/
theorem C1_single_default_witness :
    (defaultsOf twoCollState "u").length ≤ 1 ∧
    (logicColl3.isDefault = true ↔ logicColl3.id = "c2") := by
  have h := (C1_single_default "u" { collections := [logicColl], riddles := [] }
    3 "c2" ⟨"Wordplay", none, none, some true⟩ ⟨"x", none, none, none, none⟩
    (by decide) (by decide) (by decide)).1 wordplayColl twoCollState (by rfl)
  exact ⟨h.1, h.2 rfl logicColl3 (by simp [twoCollState]) (by decide)⟩

end RiddleMaker
